import Mathlib

/-!
Verification of the HSE table-nameplate generator (`generate_nameplates.py`).

The program draws, for each name, a foldable A4 nameplate: an upright copy of
the name and a logo in the top half of the page, and a 180-degree rotated copy
in the bottom half.  We embed the drawing code shallowly: every reportlab
canvas call becomes an event in a trace (`Ev`), lengths are exact rationals
(one reportlab point unit, with `mm = 72 / 25.4 = 360 / 127` points), and the
external world (file existence, image loading, font metrics) is a parameter
(`Env`, `World`).  A small interpreter for the save/restore–translate–rotate
state of the canvas recovers the device-space position of every text draw.
-/

namespace Nameplates

/-- Millimetre in PDF points: reportlab has `mm = 72 / 25.4`. -/
def mmPt : ℚ := 360 / 127

/-- Width of an A4 page in points, `210 * mm` (reportlab `A4`). -/
def a4Width : ℚ := 210 * mmPt

/-- Height of an A4 page in points, `297 * mm` (reportlab `A4`). -/
def a4Height : ℚ := 297 * mmPt

/-- Page geometry held by `NameplateGenerator`: `self.page_width`,
`self.page_height` and `self.fold_line`. -/
structure Geom where
  width : ℚ
  height : ℚ
  foldLine : ℚ
deriving DecidableEq

/-- Construction performed in `__init__` (lines 35–38):
`self.page_width, self.page_height = A4` and
`self.fold_line = self.page_height / 2`. -/
def Geom.ofPage (w h : ℚ) : Geom := ⟨w, h, h / 2⟩

/-- Geometry of the actual program run: A4. -/
def a4Geom : Geom := Geom.ofPage a4Width a4Height

/-- Logo side length, `self.logo_size = 30 * mm` (line 41). -/
def logoSize : ℚ := 30 * mmPt

/-- Logo inset from the page edges, `logo_margin = 10 * mm` (line 113). -/
def logoMargin : ℚ := 10 * mmPt

/-- Large font tier, `self.font_size_large = 48` (line 44). -/
def fontSizeLarge : ℚ := 48

/-- Medium font tier, `self.font_size_medium = 36` (line 45). -/
def fontSizeMedium : ℚ := 36

/-- Font-size selection of `_draw_name` (lines 80–83):
`if len(name) > 30: medium else: large`.  Python `len` on `str` counts code
points, as does `String.length`. -/
def fontSizeFor (name : String) : ℚ :=
  if 30 < name.length then fontSizeMedium else fontSizeLarge

/-- Font registered in `__init__` (lines 48–53): the custom font when the font
file exists, else the built-in Helvetica. -/
def fontNameOf (fontExists : Bool) : String :=
  if fontExists then "CustomFont" else "Helvetica"

/-- Canvas events: each reportlab canvas call the program performs, plus the
warnings it prints, the page boundaries and the final document save. -/
inductive Ev where
  | saveState
  | restoreState
  | setFont (font : String) (size : ℚ)
  | translate (x y : ℚ)
  | rotate (degrees : ℚ)
  | drawString (x y : ℚ) (text : String)
  | drawImage (x y w h : ℚ)
  | warn (message : String)
  | showPage
  | saveDoc
deriving DecidableEq

/-- External world seen by the generator while drawing: whether
`os.path.exists` succeeds for the logo and font paths, whether
`canvas.drawImage` succeeds on the logo file, and the font metrics behind
`canvas.stringWidth` (text, font name, font size ↦ width). -/
structure Env where
  logoExists : Bool
  logoLoadOk : Bool
  fontExists : Bool
  stringWidth : String → String → ℚ → ℚ

/-- Warning printed by `__init__` when the font file is missing (line 52). -/
def initWarnings (fontExists : Bool) : List Ev :=
  if fontExists then [] else [Ev.warn "Font file not found. Using default Helvetica."]

/-- Method `_draw_logo` (lines 55–64): draw the image if the logo path exists
and loads, otherwise print a warning and continue. -/
def drawLogo (env : Env) (x y w h : ℚ) : List Ev :=
  if env.logoExists then
    if env.logoLoadOk then [Ev.drawImage x y w h]
    else [Ev.warn "Could not load logo."]
  else [Ev.warn "Logo file not found."]

/-- Method `_draw_name` (lines 66–99): save state, set the font by name
length, measure the text, then either translate–rotate–draw (rotation 180) or
draw at `x - text_width / 2` (rotation 0), and restore state. -/
def drawName (env : Env) (name : String) (x y rot : ℚ) : List Ev :=
  let fontSize := fontSizeFor name
  let fn := fontNameOf env.fontExists
  let textWidth := env.stringWidth name fn fontSize
  [Ev.saveState, Ev.setFont fn fontSize] ++
    (if rot = 180 then
      [Ev.translate x y, Ev.rotate rot, Ev.drawString (-(textWidth / 2)) 0 name]
    else
      [Ev.drawString (x - textWidth / 2) y name]) ++
    [Ev.restoreState]

/-- Vertical position of the top-half name, line 119:
`name_y = self.fold_line + (self.page_height - self.fold_line) / 2`. -/
def nameYTop (g : Geom) : ℚ := g.foldLine + (g.height - g.foldLine) / 2

/-- Vertical position of the bottom-half name, line 129:
`name_y_bottom = self.fold_line / 2`. -/
def nameYBottom (g : Geom) : ℚ := g.foldLine / 2

/-- Body of the `generate` loop for one name (lines 110–137): top logo, top
name, bottom logo, rotated bottom name, then `c.showPage()`. -/
def pageOps (g : Geom) (env : Env) (name : String) : List Ev :=
  drawLogo env logoMargin (g.foldLine + logoMargin) logoSize logoSize ++
    drawName env name (g.width / 2) (nameYTop g) 0 ++
    drawLogo env (g.width - logoMargin - logoSize)
      (g.foldLine - logoMargin - logoSize) logoSize logoSize ++
    drawName env name (g.width / 2) (nameYBottom g) 180 ++
    [Ev.showPage]

/-- Method `generate` (lines 101–141): loop over the names in order, then
`c.save()`. -/
def generate (g : Geom) (env : Env) (names : List String) : List Ev :=
  (names.map (pageOps g env)).flatten ++ [Ev.saveDoc]

/-! Canvas transform semantics.  The program only ever translates and rotates
by 180 degrees, so the current transform is `p ↦ (dx, dy) ± p`. -/

/-- Affine transform reachable by the program: offset plus optional
point-reflection of the local axes. -/
structure Xf where
  flip : Bool
  dx : ℚ
  dy : ℚ
deriving DecidableEq

/-- Application of a transform to local coordinates. -/
def applyXf (t : Xf) (x y : ℚ) : ℚ × ℚ :=
  if t.flip then (t.dx - x, t.dy - y) else (t.dx + x, t.dy + y)

/-- Composition with a local translation, as `canvas.translate` does. -/
def xfTranslate (t : Xf) (a b : ℚ) : Xf :=
  if t.flip then ⟨true, t.dx - a, t.dy - b⟩ else ⟨false, t.dx + a, t.dy + b⟩

/-- Composition with a local 180-degree rotation, as `canvas.rotate(180)`
does: both axes reverse, the origin stays. -/
def xfRotate180 (t : Xf) : Xf := ⟨!t.flip, t.dx, t.dy⟩

/-- Canvas graphics state: current transform and the `saveState` stack. -/
structure CState where
  cur : Xf
  stack : List Xf
deriving DecidableEq

/-- Initial canvas state: identity transform, empty stack. -/
def initState : CState := ⟨⟨false, 0, 0⟩, []⟩

/-- Effect of one event on the graphics state.  Only `rotate 180` occurs in
the program, so other angles are treated as unsupported no-ops here. -/
def stepEv (σ : CState) (e : Ev) : CState :=
  match e with
  | Ev.saveState => ⟨σ.cur, σ.cur :: σ.stack⟩
  | Ev.restoreState =>
      match σ.stack with
      | [] => σ
      | t :: rest => ⟨t, rest⟩
  | Ev.translate a b => ⟨xfTranslate σ.cur a b, σ.stack⟩
  | Ev.rotate d => if d = 180 then ⟨xfRotate180 σ.cur, σ.stack⟩ else σ
  | _ => σ

/-- Graphics state after a trace. -/
def runEvs (σ : CState) (evs : List Ev) : CState := evs.foldl stepEv σ

/-- Device-space record of one text draw: where the string origin lands on
the page, whether the local frame is point-reflected, and the string. -/
structure TextDraw where
  x : ℚ
  y : ℚ
  flipped : Bool
  text : String
deriving DecidableEq

/-- Device-space text draws of a trace, obtained by pushing every
`drawString` through the current transform. -/
def interpTexts (σ : CState) : List Ev → List TextDraw
  | [] => []
  | e :: rest =>
      match e with
      | Ev.drawString x y s =>
          ⟨(applyXf σ.cur x y).1, (applyXf σ.cur x y).2, σ.cur.flip, s⟩ ::
            interpTexts (stepEv σ e) rest
      | _ => interpTexts (stepEv σ e) rest

/-- Images drawn in a trace, with the coordinates passed to `drawImage`. -/
def imagesOf (evs : List Ev) : List (ℚ × ℚ × ℚ × ℚ) :=
  evs.filterMap fun e =>
    match e with
    | Ev.drawImage x y w h => some (x, y, w, h)
    | _ => none

/-- Strings drawn in a trace, in order. -/
def stringsDrawn (evs : List Ev) : List String :=
  evs.filterMap fun e =>
    match e with
    | Ev.drawString _ _ s => some s
    | _ => none

/-- Test for a page boundary event. -/
def isShowPage : Ev → Bool
  | Ev.showPage => true
  | _ => false

/-- Number of pages emitted by a trace. -/
def showPageCount (evs : List Ev) : Nat := (evs.filter isShowPage).length

/-- Test for a warning event. -/
def isWarn : Ev → Bool
  | Ev.warn _ => true
  | _ => false

/-- Number of warnings emitted by a trace. -/
def warnCount (evs : List Ev) : Nat := (evs.filter isWarn).length

/-! Names-file reading and the command-line entry point. -/

/-- Whitespace in the sense of Python `str.strip()` (ASCII part): space, tab,
carriage return, newline, vertical tab, form feed. -/
def pyIsSpace (c : Char) : Bool := c.isWhitespace || c.toNat = 11 || c.toNat = 12

/-- Removal of leading and trailing whitespace from a character list. -/
def stripChars (l : List Char) : List Char :=
  ((l.dropWhile pyIsSpace).reverse.dropWhile pyIsSpace).reverse

/-- Python `line.strip()`. -/
def strip (s : String) : String := String.mk (stripChars s.data)

/-- Function `read_names_from_file` (lines 144–160) on the lines of the file:
strip each line, keep the non-empty results in order. -/
def read_names_from_file (lines : List String) : List String :=
  lines.filterMap fun line =>
    let t := strip line
    if t = "" then none else some t

/-- External world seen by `main`: existence of the three input paths, the
lines of the names file, and the drawing environment ingredients. -/
structure World where
  namesExists : Bool
  logoExists : Bool
  fontExists : Bool
  namesLines : List String
  logoLoadOk : Bool
  stringWidth : String → String → ℚ → ℚ

/-- Drawing environment determined by a world. -/
def envOf (w : World) : Env := ⟨w.logoExists, w.logoLoadOk, w.fontExists, w.stringWidth⟩

/-- Function `main` (lines 163–214), abstracted over the parsed arguments:
returns the exit code (the script ends with `exit(main())`) together with the
trace of canvas events produced.  Each missing input file, and an
empty-after-filtering names list, returns 1 before any drawing. -/
def main (w : World) : Nat × List Ev :=
  if !w.namesExists then (1, [])
  else if !w.logoExists then (1, [])
  else if !w.fontExists then (1, [])
  else
    let names := read_names_from_file w.namesLines
    if names = [] then (1, [])
    else (0, initWarnings w.fontExists ++ generate a4Geom (envOf w) names)

/-- Exception-aware variant of `_draw_name` for the rotated draw: the final
`c.drawString` call is an external library call and may raise.  The Python
body has no try/finally, so when `drawString` raises, `c.restoreState()` on
line 99 is skipped and the exception propagates.  Returns the events actually
emitted and whether the call completed normally. -/
def drawNameE (env : Env) (name : String) (x y rot : ℚ)
    (drawStringRaises : Bool) : List Ev × Bool :=
  let fontSize := fontSizeFor name
  let fn := fontNameOf env.fontExists
  let textWidth := env.stringWidth name fn fontSize
  let pre := [Ev.saveState, Ev.setFont fn fontSize]
  if rot = 180 then
    if drawStringRaises then
      (pre ++ [Ev.translate x y, Ev.rotate rot], false)
    else
      (pre ++ [Ev.translate x y, Ev.rotate rot,
        Ev.drawString (-(textWidth / 2)) 0 name, Ev.restoreState], true)
  else
    if drawStringRaises then (pre, false)
    else (pre ++ [Ev.drawString (x - textWidth / 2) y name, Ev.restoreState], true)

/-- Concrete environment for closed instances: all assets present and loadable,
string width identically zero. -/
def env0 : Env := ⟨true, true, true, fun _ _ _ => 0⟩

/-- Concrete environment with a missing logo file. -/
def envNoLogo : Env := ⟨false, true, true, fun _ _ _ => 0⟩

/-- Concrete world whose names file is missing. -/
def wMissingNames : World := ⟨false, true, true, ["Alice"], true, fun _ _ _ => 0⟩

/-- Concrete world with all inputs present and one usable name. -/
def wOk : World := ⟨true, true, true, ["Alice"], true, fun _ _ _ => 0⟩

/-- Concrete world whose names file exists but contains only blank lines. -/
def wEmptyNames : World := ⟨true, true, true, ["", "   "], true, fun _ _ _ => 0⟩

/-! Helper lemmas about the trace combinators. -/

theorem showPageCount_append (a b : List Ev) :
    showPageCount (a ++ b) = showPageCount a + showPageCount b := by
  simp [showPageCount, List.filter_append]

theorem warnCount_append (a b : List Ev) :
    warnCount (a ++ b) = warnCount a + warnCount b := by
  simp [warnCount, List.filter_append]

theorem stringsDrawn_append (a b : List Ev) :
    stringsDrawn (a ++ b) = stringsDrawn a ++ stringsDrawn b := by
  simp [stringsDrawn, List.filterMap_append]

theorem imagesOf_append (a b : List Ev) :
    imagesOf (a ++ b) = imagesOf a ++ imagesOf b := by
  simp [imagesOf, List.filterMap_append]

theorem showPageCount_drawLogo (env : Env) (x y w h : ℚ) :
    showPageCount (drawLogo env x y w h) = 0 := by
  unfold drawLogo
  split <;> first | rfl | (split <;> rfl)

theorem showPageCount_drawName (env : Env) (name : String) (x y rot : ℚ) :
    showPageCount (drawName env name x y rot) = 0 := by
  unfold drawName
  split <;> rfl

theorem stringsDrawn_drawLogo (env : Env) (x y w h : ℚ) :
    stringsDrawn (drawLogo env x y w h) = [] := by
  unfold drawLogo
  split <;> first | rfl | (split <;> rfl)

theorem stringsDrawn_drawName (env : Env) (name : String) (x y rot : ℚ) :
    stringsDrawn (drawName env name x y rot) = [name] := by
  unfold drawName
  split <;> rfl

theorem imagesOf_drawLogo_ok (env : Env) (x y w h : ℚ)
    (hE : env.logoExists = true) (hL : env.logoLoadOk = true) :
    imagesOf (drawLogo env x y w h) = [(x, y, w, h)] := by
  simp [drawLogo, hE, hL, imagesOf]

theorem imagesOf_drawLogo_bad (env : Env) (x y w h : ℚ)
    (hb : env.logoExists = false ∨ env.logoLoadOk = false) :
    imagesOf (drawLogo env x y w h) = [] := by
  unfold drawLogo
  rcases hb with hb | hb
  · simp [hb, imagesOf]
  · simp only [hb]
    by_cases hE : env.logoExists <;> simp [hE, imagesOf]

theorem warnCount_drawLogo_bad (env : Env) (x y w h : ℚ)
    (hb : env.logoExists = false ∨ env.logoLoadOk = false) :
    warnCount (drawLogo env x y w h) = 1 := by
  unfold drawLogo
  rcases hb with hb | hb
  · simp [hb, warnCount, isWarn]
  · simp only [hb]
    by_cases hE : env.logoExists <;> simp [hE, warnCount, isWarn]

theorem warnCount_drawName (env : Env) (name : String) (x y rot : ℚ) :
    warnCount (drawName env name x y rot) = 0 := by
  unfold drawName
  split <;> rfl

theorem imagesOf_drawName (env : Env) (name : String) (x y rot : ℚ) :
    imagesOf (drawName env name x y rot) = [] := by
  unfold drawName
  split <;> rfl

theorem generate_cons (g : Geom) (env : Env) (n : String) (rest : List String) :
    generate g env (n :: rest) = pageOps g env n ++ generate g env rest := by
  simp [generate]

theorem showPageCount_pageOps (g : Geom) (env : Env) (n : String) :
    showPageCount (pageOps g env n) = 1 := by
  simp only [pageOps, showPageCount_append, showPageCount_drawLogo, showPageCount_drawName]
  rfl

theorem stringsDrawn_pageOps (g : Geom) (env : Env) (n : String) :
    stringsDrawn (pageOps g env n) = [n, n] := by
  simp only [pageOps, stringsDrawn_append, stringsDrawn_drawLogo, stringsDrawn_drawName]
  rfl

theorem showPageCount_generate (g : Geom) (env : Env) (names : List String) :
    showPageCount (generate g env names) = names.length := by
  induction names with
  | nil => rfl
  | cons n rest ih =>
      rw [generate_cons, showPageCount_append, ih, showPageCount_pageOps]
      simp [Nat.add_comm]

theorem stringsDrawn_generate (g : Geom) (env : Env) (names : List String) :
    stringsDrawn (generate g env names) = names.flatMap fun n => [n, n] := by
  induction names with
  | nil => rfl
  | cons n rest ih =>
      rw [generate_cons, stringsDrawn_append, ih, stringsDrawn_pageOps]
      simp

theorem runEvs_append (σ : CState) (a b : List Ev) :
    runEvs σ (a ++ b) = runEvs (runEvs σ a) b := by
  simp [runEvs, List.foldl_append]

theorem interpTexts_append (σ : CState) (a b : List Ev) :
    interpTexts σ (a ++ b) = interpTexts σ a ++ interpTexts (runEvs σ a) b := by
  induction a generalizing σ with
  | nil => simp [interpTexts, runEvs]
  | cons e a ih => cases e <;> simp [interpTexts, runEvs, ih]

theorem runEvs_drawLogo (env : Env) (x y w h : ℚ) (σ : CState) :
    runEvs σ (drawLogo env x y w h) = σ := by
  unfold drawLogo runEvs
  split
  · split <;> rfl
  · rfl

theorem interpTexts_drawLogo (env : Env) (x y w h : ℚ) (σ : CState) :
    interpTexts σ (drawLogo env x y w h) = [] := by
  unfold drawLogo
  split
  · split <;> rfl
  · rfl

theorem runEvs_drawName (env : Env) (name : String) (x y rot : ℚ) (σ : CState) :
    runEvs σ (drawName env name x y rot) = σ := by
  unfold drawName runEvs
  split
  · rename_i h
    simp [stepEv, h]
  · simp [stepEv]

theorem runEvs_pageOps (g : Geom) (env : Env) (n : String) (σ : CState) :
    runEvs σ (pageOps g env n) = σ := by
  simp only [pageOps, runEvs_append, runEvs_drawLogo, runEvs_drawName]
  rfl

theorem runEvs_generate (g : Geom) (env : Env) (names : List String) (σ : CState) :
    runEvs σ (generate g env names) = σ := by
  induction names with
  | nil => rfl
  | cons n rest ih => rw [generate_cons, runEvs_append, runEvs_pageOps, ih]

theorem interpTexts_drawName_upright (env : Env) (n : String) (x y : ℚ) :
    interpTexts initState (drawName env n x y 0) =
      [⟨x - env.stringWidth n (fontNameOf env.fontExists) (fontSizeFor n) / 2, y, false, n⟩] := by
  simp [drawName, interpTexts, stepEv, applyXf, initState]

theorem interpTexts_drawName_rotated (env : Env) (n : String) (x y : ℚ) :
    interpTexts initState (drawName env n x y 180) =
      [⟨x + env.stringWidth n (fontNameOf env.fontExists) (fontSizeFor n) / 2, y, true, n⟩] := by
  simp [drawName, interpTexts, stepEv, applyXf, xfTranslate, xfRotate180, initState,
    sub_neg_eq_add]

/-- Device-space text draws of one page: the upright name at
`(width / 2 - textWidth / 2, nameYTop)` and the point-reflected name whose
string origin lands at `(width / 2 + textWidth / 2, nameYBottom)`. -/
theorem interpTexts_pageOps (g : Geom) (env : Env) (name : String) :
    interpTexts initState (pageOps g env name) =
      [⟨g.width / 2 - env.stringWidth name (fontNameOf env.fontExists) (fontSizeFor name) / 2,
        nameYTop g, false, name⟩,
       ⟨g.width / 2 + env.stringWidth name (fontNameOf env.fontExists) (fontSizeFor name) / 2,
        nameYBottom g, true, name⟩] := by
  simp only [pageOps, interpTexts_append, runEvs_append, runEvs_drawLogo, runEvs_drawName,
    interpTexts_drawLogo, interpTexts_drawName_upright, interpTexts_drawName_rotated]
  rfl

/-! Claim theorems. -/

/-- C3.  Font-size selection: a name of more than 30 characters gets the
medium tier, any other the large tier; 30 characters exactly is large
(inclusive threshold); the selection is total and always one of the two
tiers. -/
theorem fontSize_threshold (name : String) :
    (name.length ≤ 30 → fontSizeFor name = fontSizeLarge)
  ∧ (30 < name.length → fontSizeFor name = fontSizeMedium)
  ∧ (name.length = 30 → fontSizeFor name = fontSizeLarge)
  ∧ (fontSizeFor name = fontSizeLarge ∨ fontSizeFor name = fontSizeMedium) := by
  unfold fontSizeFor
  refine ⟨fun h => ?_, fun h => ?_, fun h => ?_, ?_⟩
  · rw [if_neg (by omega)]
  · rw [if_pos h]
  · rw [if_neg (by omega)]
  · split
    · right; rfl
    · left; rfl

/-- Witness for C3 at the boundary: a 30-character name takes the large
tier. -/
theorem fontSize_threshold_witness :
    ("xxxxxxxxxxxxxxxxxxxxxxxxxxxxxx" : String).length = 30 ∧
      fontSizeFor "xxxxxxxxxxxxxxxxxxxxxxxxxxxxxx" = fontSizeLarge := by
  refine ⟨by decide, (fontSize_threshold _).2.2.1 (by decide)⟩

/-- C1.  Top (upright) region placement, for every name: the first draw of
the page is the logo anchored at `(margin, foldLine + margin)` with size
`logoSize × logoSize`; the upright text draw has origin
`width / 2 - textWidth / 2` (horizontally centred on `width / 2`), vertical
position `foldLine + (height - foldLine) / 2`, and carries no rotation (the
rotation-0 branch of `_draw_name` emits no translate or rotate). -/
theorem top_region_placement (g : Geom) (env : Env) (name : String)
    (hE : env.logoExists = true) (hL : env.logoLoadOk = true) :
    (pageOps g env name).head? =
        some (Ev.drawImage logoMargin (g.foldLine + logoMargin) logoSize logoSize)
  ∧ (interpTexts initState (pageOps g env name)).head? =
        some ⟨g.width / 2 -
                env.stringWidth name (fontNameOf env.fontExists) (fontSizeFor name) / 2,
              nameYTop g, false, name⟩
  ∧ nameYTop g = g.foldLine + (g.height - g.foldLine) / 2
  ∧ drawName env name (g.width / 2) (nameYTop g) 0 =
      [Ev.saveState, Ev.setFont (fontNameOf env.fontExists) (fontSizeFor name),
       Ev.drawString
         (g.width / 2 - env.stringWidth name (fontNameOf env.fontExists) (fontSizeFor name) / 2)
         (nameYTop g) name,
       Ev.restoreState] := by
  refine ⟨?_, ?_, rfl, ?_⟩
  · simp [pageOps, drawLogo, hE, hL]
  · rw [interpTexts_pageOps]
    rfl
  · simp [drawName]

/-- Witness for C1: concrete geometry, environment and name. -/
theorem top_region_placement_witness :
    (env0.logoExists = true ∧ env0.logoLoadOk = true)
  ∧ ((pageOps a4Geom env0 "Alice").head? =
        some (Ev.drawImage logoMargin (a4Geom.foldLine + logoMargin) logoSize logoSize)
     ∧ (interpTexts initState (pageOps a4Geom env0 "Alice")).head? =
          some ⟨a4Geom.width / 2 -
                  env0.stringWidth "Alice" (fontNameOf env0.fontExists) (fontSizeFor "Alice") / 2,
                nameYTop a4Geom, false, "Alice"⟩
     ∧ nameYTop a4Geom = a4Geom.foldLine + (a4Geom.height - a4Geom.foldLine) / 2
     ∧ drawName env0 "Alice" (a4Geom.width / 2) (nameYTop a4Geom) 0 =
        [Ev.saveState, Ev.setFont (fontNameOf env0.fontExists) (fontSizeFor "Alice"),
         Ev.drawString
           (a4Geom.width / 2 -
             env0.stringWidth "Alice" (fontNameOf env0.fontExists) (fontSizeFor "Alice") / 2)
           (nameYTop a4Geom) "Alice",
         Ev.restoreState]) :=
  ⟨⟨rfl, rfl⟩, top_region_placement a4Geom env0 "Alice" rfl rfl⟩

/-- C2.  Bottom (rotated) region placement, for every name: the two logo
draws of the page are the top one and the bottom one anchored at
`(width - margin - logoSize, foldLine - margin - logoSize)` with size
`logoSize × logoSize`; the bottom text draw is a scoped
translate-to-`(width / 2, foldLine / 2)` followed by `rotate 180` followed by
`drawString` at local offset `(-textWidth / 2, 0)`; that draw occurs inside
the page trace; and in device space its string origin lands at
`(width / 2 + textWidth / 2, foldLine / 2)` with reversed axes. -/
theorem bottom_region_placement (g : Geom) (env : Env) (name : String)
    (hE : env.logoExists = true) (hL : env.logoLoadOk = true) :
    imagesOf (pageOps g env name) =
        [(logoMargin, g.foldLine + logoMargin, logoSize, logoSize),
         (g.width - logoMargin - logoSize, g.foldLine - logoMargin - logoSize,
          logoSize, logoSize)]
  ∧ drawName env name (g.width / 2) (nameYBottom g) 180 =
      [Ev.saveState, Ev.setFont (fontNameOf env.fontExists) (fontSizeFor name),
       Ev.translate (g.width / 2) (nameYBottom g), Ev.rotate 180,
       Ev.drawString
         (-(env.stringWidth name (fontNameOf env.fontExists) (fontSizeFor name) / 2)) 0 name,
       Ev.restoreState]
  ∧ nameYBottom g = g.foldLine / 2
  ∧ (∃ pre post, pageOps g env name =
        pre ++ drawName env name (g.width / 2) (nameYBottom g) 180 ++ post)
  ∧ (interpTexts initState (pageOps g env name)).getLast? =
        some ⟨g.width / 2 +
                env.stringWidth name (fontNameOf env.fontExists) (fontSizeFor name) / 2,
              nameYBottom g, true, name⟩ := by
  refine ⟨?_, ?_, rfl, ?_, ?_⟩
  · simp only [pageOps, imagesOf_append, imagesOf_drawLogo_ok env _ _ _ _ hE hL,
      imagesOf_drawName]
    rfl
  · simp [drawName]
  · exact ⟨drawLogo env logoMargin (g.foldLine + logoMargin) logoSize logoSize ++
        drawName env name (g.width / 2) (nameYTop g) 0 ++
        drawLogo env (g.width - logoMargin - logoSize)
          (g.foldLine - logoMargin - logoSize) logoSize logoSize,
      [Ev.showPage], by simp [pageOps]⟩
  · rw [interpTexts_pageOps]
    rfl

/-- Witness for C2: concrete geometry, environment and name. -/
theorem bottom_region_placement_witness :
    (env0.logoExists = true ∧ env0.logoLoadOk = true)
  ∧ (imagesOf (pageOps a4Geom env0 "Alice") =
        [(logoMargin, a4Geom.foldLine + logoMargin, logoSize, logoSize),
         (a4Geom.width - logoMargin - logoSize, a4Geom.foldLine - logoMargin - logoSize,
          logoSize, logoSize)]
     ∧ drawName env0 "Alice" (a4Geom.width / 2) (nameYBottom a4Geom) 180 =
        [Ev.saveState, Ev.setFont (fontNameOf env0.fontExists) (fontSizeFor "Alice"),
         Ev.translate (a4Geom.width / 2) (nameYBottom a4Geom), Ev.rotate 180,
         Ev.drawString
           (-(env0.stringWidth "Alice" (fontNameOf env0.fontExists) (fontSizeFor "Alice") / 2))
           0 "Alice",
         Ev.restoreState]
     ∧ nameYBottom a4Geom = a4Geom.foldLine / 2
     ∧ (∃ pre post, pageOps a4Geom env0 "Alice" =
          pre ++ drawName env0 "Alice" (a4Geom.width / 2) (nameYBottom a4Geom) 180 ++ post)
     ∧ (interpTexts initState (pageOps a4Geom env0 "Alice")).getLast? =
          some ⟨a4Geom.width / 2 +
                  env0.stringWidth "Alice" (fontNameOf env0.fontExists) (fontSizeFor "Alice") / 2,
                nameYBottom a4Geom, true, "Alice"⟩) :=
  ⟨⟨rfl, rfl⟩, bottom_region_placement a4Geom env0 "Alice" rfl rfl⟩

/-- C4.  For every geometry with `0 < foldLine < height`, the top-half text
baseline computed on line 119 lies strictly above the fold line and the
bottom-half one computed on line 129 lies strictly below it. -/
theorem text_ys_straddle_fold (g : Geom)
    (h0 : 0 < g.foldLine) (hh : g.foldLine < g.height) :
    g.foldLine < nameYTop g ∧ nameYBottom g < g.foldLine := by
  unfold nameYTop nameYBottom
  constructor <;> linarith

/-- Witness for C4 at the A4 geometry of the actual run. -/
theorem text_ys_straddle_fold_witness :
    (0 < a4Geom.foldLine ∧ a4Geom.foldLine < a4Geom.height) ∧
      (a4Geom.foldLine < nameYTop a4Geom ∧ nameYBottom a4Geom < a4Geom.foldLine) := by
  have h0 : 0 < a4Geom.foldLine := by
    norm_num [a4Geom, Geom.ofPage, a4Height, mmPt]
  have hh : a4Geom.foldLine < a4Geom.height := by
    norm_num [a4Geom, Geom.ofPage, a4Height, mmPt]
  exact ⟨⟨h0, hh⟩, text_ys_straddle_fold a4Geom h0 hh⟩

theorem pageOps_eq_concat (g : Geom) (env : Env) (n : String) :
    pageOps g env n =
      (drawLogo env logoMargin (g.foldLine + logoMargin) logoSize logoSize ++
        drawName env n (g.width / 2) (nameYTop g) 0 ++
        drawLogo env (g.width - logoMargin - logoSize)
          (g.foldLine - logoMargin - logoSize) logoSize logoSize ++
        drawName env n (g.width / 2) (nameYBottom g) 180) ++ [Ev.showPage] := by
  simp [pageOps]

theorem pageOps_getLast (g : Geom) (env : Env) (n : String) :
    (pageOps g env n).getLast? = some Ev.showPage := by
  rw [pageOps_eq_concat, List.getLast?_concat]

theorem pageOps_ne_nil (g : Geom) (env : Env) (n : String) : pageOps g env n ≠ [] := by
  intro h
  have := pageOps_getLast g env n
  rw [h] at this
  cases this

theorem flatten_pageOps_getLast (g : Geom) (env : Env) :
    ∀ names : List String, names ≠ [] →
      ((names.map (pageOps g env)).flatten).getLast? = some Ev.showPage := by
  intro names hne
  induction names with
  | nil => exact absurd rfl hne
  | cons n rest ih =>
      cases rest with
      | nil => simpa using pageOps_getLast g env n
      | cons m rest2 =>
          rw [List.map_cons, List.flatten_cons,
            List.getLast?_append_of_ne_nil _ ?_]
          · exact ih (by simp)
          · rw [List.map_cons, List.flatten_cons]
            intro h
            exact pageOps_ne_nil g env m (List.append_eq_nil.mp h).1

/-- C5.  For every non-empty list of names (duplicates included), `generate`
emits exactly one page boundary per name, draws each name twice on its own
page in input order, processes the names strictly in sequence with the page
boundary closing each name before the next starts, and after the last page
boundary emits only the document save. -/
theorem generate_page_structure (g : Geom) (env : Env) (names : List String)
    (hne : names ≠ []) :
    showPageCount (generate g env names) = names.length
  ∧ stringsDrawn (generate g env names) = (names.flatMap fun n => [n, n])
  ∧ (∀ n rest, generate g env (n :: rest) = pageOps g env n ++ generate g env rest)
  ∧ (∀ n, (pageOps g env n).getLast? = some Ev.showPage)
  ∧ (generate g env names).getLast? = some Ev.saveDoc
  ∧ (generate g env names).dropLast.getLast? = some Ev.showPage := by
  refine ⟨showPageCount_generate g env names, stringsDrawn_generate g env names,
    fun n rest => generate_cons g env n rest, fun n => pageOps_getLast g env n, ?_, ?_⟩
  · simp [generate, List.getLast?_concat]
  · rw [generate, List.dropLast_concat]
    exact flatten_pageOps_getLast g env names hne

/-- Witness for C5 at a concrete duplicate-bearing list of names. -/
theorem generate_page_structure_witness :
    ((["Alice", "Bob", "Alice"] : List String) ≠ [])
  ∧ (showPageCount (generate a4Geom env0 ["Alice", "Bob", "Alice"]) = 3
     ∧ stringsDrawn (generate a4Geom env0 ["Alice", "Bob", "Alice"]) =
        ["Alice", "Alice", "Bob", "Bob", "Alice", "Alice"]
     ∧ (generate a4Geom env0 ["Alice", "Bob", "Alice"]).getLast? = some Ev.saveDoc
     ∧ (generate a4Geom env0 ["Alice", "Bob", "Alice"]).dropLast.getLast? =
        some Ev.showPage) := by
  have h := generate_page_structure a4Geom env0 ["Alice", "Bob", "Alice"] (by simp)
  exact ⟨by simp, h.1, by simpa using h.2.1, h.2.2.2.2.1, h.2.2.2.2.2⟩

/-- C6 counterexample: calling `generate` directly on the empty list is not
rejected: the method runs and closes a zero-page document (a trace holding
just the document save, no page and no warning or error). -/
theorem generate_empty_not_rejected :
    generate a4Geom env0 [] = [Ev.saveDoc]
  ∧ showPageCount (generate a4Geom env0 []) = 0
  ∧ warnCount (generate a4Geom env0 []) = 0 :=
  ⟨rfl, rfl, rfl⟩

/-- C6 (amended).  The command-line path rejects a names file that filters to
zero names: `main` returns exit code 1 with no output produced.  The
`generate` method itself performs no emptiness check: on `[]` it saves a
zero-page document. -/
theorem empty_names_rejected_by_cli (w : World)
    (h1 : w.namesExists = true) (h2 : w.logoExists = true) (h3 : w.fontExists = true)
    (h4 : read_names_from_file w.namesLines = []) :
    main w = (1, []) ∧ ∀ (g : Geom) (env : Env), generate g env [] = [Ev.saveDoc] := by
  refine ⟨?_, fun g env => rfl⟩
  simp [main, h1, h2, h3, h4]

/-- Witness for the amended C6 at a concrete blank-lines-only world. -/
theorem empty_names_rejected_by_cli_witness :
    (wEmptyNames.namesExists = true ∧ wEmptyNames.logoExists = true ∧
      wEmptyNames.fontExists = true ∧ read_names_from_file wEmptyNames.namesLines = [])
  ∧ main wEmptyNames = (1, []) :=
  ⟨⟨rfl, rfl, rfl, by decide⟩,
    (empty_names_rejected_by_cli wEmptyNames rfl rfl rfl (by decide)).1⟩

/-- C7.  The entry point returns exit code 1, producing no output, whenever
the names file, logo file or font file is missing or the names file filters
to zero names; it returns exit code 0 when all three files exist and at
least one usable name remains. -/
theorem main_exit_codes (w : World) :
    ((w.namesExists = false ∨ w.logoExists = false ∨ w.fontExists = false ∨
        read_names_from_file w.namesLines = []) → main w = (1, []))
  ∧ (w.namesExists = true → w.logoExists = true → w.fontExists = true →
      read_names_from_file w.namesLines ≠ [] → (main w).1 = 0) := by
  constructor
  · intro h
    by_cases h1 : w.namesExists
    · by_cases h2 : w.logoExists
      · by_cases h3 : w.fontExists
        · have h4 : read_names_from_file w.namesLines = [] := by
            rcases h with h | h | h | h
            · rw [h] at h1; cases h1
            · rw [h] at h2; cases h2
            · rw [h] at h3; cases h3
            · exact h
          simp [main, h1, h2, h3, h4]
        · simp [main, h1, h2, h3]
      · simp [main, h1, h2]
    · simp [main, h1]
  · intro h1 h2 h3 h4
    simp [main, h1, h2, h3, h4]

/-- Witness for C7: a world with a missing names file exits 1 with no
output; a fully valid world exits 0. -/
theorem main_exit_codes_witness :
    (wMissingNames.namesExists = false ∧ main wMissingNames = (1, []))
  ∧ (wOk.namesExists = true ∧ read_names_from_file wOk.namesLines ≠ [] ∧
      (main wOk).1 = 0) :=
  ⟨⟨rfl, (main_exit_codes wMissingNames).1 (Or.inl rfl)⟩,
    ⟨rfl, by decide, (main_exit_codes wOk).2 rfl rfl rfl (by decide)⟩⟩

theorem imagesOf_pageOps_bad (g : Geom) (env : Env) (n : String)
    (hb : env.logoExists = false ∨ env.logoLoadOk = false) :
    imagesOf (pageOps g env n) = [] := by
  simp only [pageOps, imagesOf_append, imagesOf_drawLogo_bad env _ _ _ _ hb,
    imagesOf_drawName]
  rfl

theorem imagesOf_generate_bad (g : Geom) (env : Env) (names : List String)
    (hb : env.logoExists = false ∨ env.logoLoadOk = false) :
    imagesOf (generate g env names) = [] := by
  induction names with
  | nil => rfl
  | cons n rest ih =>
      rw [generate_cons, imagesOf_append, ih, imagesOf_pageOps_bad g env n hb]
      rfl

theorem warnCount_pageOps_bad (g : Geom) (env : Env) (n : String)
    (hb : env.logoExists = false ∨ env.logoLoadOk = false) :
    warnCount (pageOps g env n) = 2 := by
  simp only [pageOps, warnCount_append, warnCount_drawLogo_bad env _ _ _ _ hb,
    warnCount_drawName]
  rfl

theorem warnCount_generate_bad (g : Geom) (env : Env) (names : List String)
    (hb : env.logoExists = false ∨ env.logoLoadOk = false) :
    warnCount (generate g env names) = 2 * names.length := by
  induction names with
  | nil => rfl
  | cons n rest ih =>
      rw [generate_cons, warnCount_append, ih, warnCount_pageOps_bad g env n hb]
      simp
      omega

theorem setFont_not_mem_drawLogo (env : Env) (x y w h : ℚ) (f : String) (s : ℚ) :
    Ev.setFont f s ∉ drawLogo env x y w h := by
  unfold drawLogo
  split
  · split <;> simp
  · simp

theorem setFont_mem_drawName (env : Env) (n : String) (x y rot : ℚ) (f : String) (s : ℚ)
    (hm : Ev.setFont f s ∈ drawName env n x y rot) : f = fontNameOf env.fontExists := by
  unfold drawName at hm
  split at hm <;> simp at hm <;> exact hm.1

theorem setFont_mem_generate (g : Geom) (env : Env) (names : List String)
    (f : String) (s : ℚ) (hm : Ev.setFont f s ∈ generate g env names) :
    f = fontNameOf env.fontExists := by
  induction names with
  | nil => simp [generate] at hm
  | cons n rest ih =>
      rw [generate_cons] at hm
      rcases List.mem_append.mp hm with hm | hm
      · rw [pageOps_eq_concat] at hm
        rcases List.mem_append.mp hm with hm | hm
        · rcases List.mem_append.mp hm with hm | hm
          · rcases List.mem_append.mp hm with hm | hm
            · rcases List.mem_append.mp hm with hm | hm
              · exact absurd hm (setFont_not_mem_drawLogo env _ _ _ _ f s)
              · exact setFont_mem_drawName env n _ _ _ f s hm
            · exact absurd hm (setFont_not_mem_drawLogo env _ _ _ _ f s)
          · exact setFont_mem_drawName env n _ _ _ f s hm
        · simp at hm
      · exact ih hm

/-- C8.  Missing or unloadable assets never abort the run: with a missing or
unloadable logo, no image is drawn, one warning is emitted per logo call (two
per page), yet every page and both text draws per name are still produced;
with a missing font file, a warning is emitted at initialisation, every
`setFont` of the whole run uses the built-in Helvetica, and every page is
still produced. -/
theorem missing_assets_degrade_gracefully (g : Geom) (env : Env) (names : List String) :
    ((env.logoExists = false ∨ env.logoLoadOk = false) →
        imagesOf (generate g env names) = []
      ∧ warnCount (generate g env names) = 2 * names.length
      ∧ showPageCount (generate g env names) = names.length
      ∧ stringsDrawn (generate g env names) = (names.flatMap fun n => [n, n]))
  ∧ (env.fontExists = false →
        (∀ f s, Ev.setFont f s ∈ generate g env names → f = "Helvetica")
      ∧ initWarnings env.fontExists =
          [Ev.warn "Font file not found. Using default Helvetica."]
      ∧ showPageCount (generate g env names) = names.length) := by
  constructor
  · intro hb
    exact ⟨imagesOf_generate_bad g env names hb, warnCount_generate_bad g env names hb,
      showPageCount_generate g env names, stringsDrawn_generate g env names⟩
  · intro hf
    refine ⟨fun f s hm => ?_, by simp [initWarnings, hf],
      showPageCount_generate g env names⟩
    have hfn := setFont_mem_generate g env names f s hm
    rw [hf] at hfn
    simpa [fontNameOf] using hfn

/-- Witness for C8: a run with a missing logo still produces its page and
texts, with warnings and no image. -/
theorem missing_assets_degrade_gracefully_witness :
    envNoLogo.logoExists = false
  ∧ (imagesOf (generate a4Geom envNoLogo ["Bob"]) = []
     ∧ warnCount (generate a4Geom envNoLogo ["Bob"]) = 2
     ∧ showPageCount (generate a4Geom envNoLogo ["Bob"]) = 1
     ∧ stringsDrawn (generate a4Geom envNoLogo ["Bob"]) = ["Bob", "Bob"]) := by
  have h := (missing_assets_degrade_gracefully a4Geom envNoLogo ["Bob"]).1 (Or.inl rfl)
  exact ⟨rfl, by simpa using h⟩

theorem drawNameE_no_raise (env : Env) (name : String) (x y rot : ℚ) :
    drawNameE env name x y rot false = (drawName env name x y rot, true) := by
  unfold drawNameE drawName
  split <;> simp

/-- C9 counterexample: the rotated draw is not restored on the error exit
path.  With the external `drawString` call raising, the emitted trace
contains the `saveState`, the translation and the 180-degree rotation but no
`restoreState`, the call does not complete, and the graphics-state stack
still holds the saved frame. -/
theorem rotated_draw_not_restored_on_raise :
    (drawNameE env0 "Ann" 100 200 180 true).1 =
      [Ev.saveState, Ev.setFont "CustomFont" 48, Ev.translate 100 200, Ev.rotate 180]
  ∧ (drawNameE env0 "Ann" 100 200 180 true).2 = false
  ∧ Ev.restoreState ∉ (drawNameE env0 "Ann" 100 200 180 true).1
  ∧ (runEvs initState (drawNameE env0 "Ann" 100 200 180 true).1).stack = [⟨false, 0, 0⟩] := by
  refine ⟨rfl, rfl, ?_, rfl⟩
  decide

/-- C9 (amended).  On the normal (non-raising) path every text draw, the
rotated one included, is bracketed by `saveState`/`restoreState` and leaves
the whole graphics state (current transform and stack) exactly as it found
it, from any starting state, so no rotation or translation leaks into later
drawing; across a full `generate` run the state returns to its initial
value.  The Python body uses no try/finally, so this restoration is not
guaranteed on exception paths (see the counterexample); but no exception is
caught anywhere, so a raising draw aborts the run rather than continuing
with a leaked transform. -/
theorem rotated_draw_scoped (env : Env) (name : String) (x y rot : ℚ) (σ : CState) :
    runEvs σ (drawName env name x y rot) = σ
  ∧ (drawName env name x y rot).head? = some Ev.saveState
  ∧ (drawName env name x y rot).getLast? = some Ev.restoreState
  ∧ ∀ (g : Geom) (names : List String), runEvs σ (generate g env names) = σ := by
  refine ⟨runEvs_drawName env name x y rot σ, ?_, ?_, fun g names => runEvs_generate g env names σ⟩
  · unfold drawName
    split <;> rfl
  · unfold drawName
    split <;> rfl

theorem head_dropWhile_false (p : Char → Bool) (l : List Char) (a : Char)
    (h : (l.dropWhile p).head? = some a) : p a = false := by
  have := List.head?_dropWhile_not p l
  rw [h] at this
  simpa using this

theorem dropWhile_eq_self_of_head (p : Char → Bool) (l : List Char)
    (h : ∀ a, l.head? = some a → p a = false) : l.dropWhile p = l := by
  cases l with
  | nil => rfl
  | cons a t =>
      rw [List.dropWhile_cons, if_neg]
      simp [h a rfl]

theorem getLast?_dropWhile_of_ne_nil (p : Char → Bool) (w : List Char)
    (h : w.dropWhile p ≠ []) : (w.dropWhile p).getLast? = w.getLast? := by
  obtain ⟨t, ht⟩ := List.dropWhile_suffix (l := w) p
  conv_rhs => rw [← ht]
  exact (List.getLast?_append_of_ne_nil t h).symm

theorem stripChars_idem (l : List Char) : stripChars (stripChars l) = stripChars l := by
  unfold stripChars
  have hv_dw : ((l.dropWhile pyIsSpace).reverse.dropWhile pyIsSpace).dropWhile pyIsSpace =
      (l.dropWhile pyIsSpace).reverse.dropWhile pyIsSpace :=
    List.dropWhile_idempotent _ _
  have h1 : ((l.dropWhile pyIsSpace).reverse.dropWhile pyIsSpace).reverse.dropWhile pyIsSpace =
      ((l.dropWhile pyIsSpace).reverse.dropWhile pyIsSpace).reverse := by
    apply dropWhile_eq_self_of_head
    intro a ha
    rw [List.head?_reverse] at ha
    have hvne : (l.dropWhile pyIsSpace).reverse.dropWhile pyIsSpace ≠ [] := by
      intro hv0
      rw [hv0] at ha
      cases ha
    rw [getLast?_dropWhile_of_ne_nil _ _ hvne, List.getLast?_reverse] at ha
    exact head_dropWhile_false pyIsSpace l a ha
  rw [h1, List.reverse_reverse, hv_dw]

theorem strip_idem (s : String) : strip (strip s) = strip s :=
  congrArg String.mk (stripChars_idem s.data)

theorem strip_eq_empty_of_all_space (l : String) (h : l.data.all pyIsSpace = true) :
    strip l = "" := by
  unfold strip stripChars
  have h1 : l.data.dropWhile pyIsSpace = [] := by
    rw [List.dropWhile_eq_nil_iff]
    intro x hx
    exact (List.all_eq_true.mp h) x hx
  rw [h1]
  rfl

/-- C10.  The names read from the file are the stripped lines in file order
with empty results dropped: every returned name is its own strip (no leading
or trailing whitespace remains) and non-empty, and a line that is entirely
whitespace contributes nothing. -/
theorem read_names_strips_and_filters (lines : List String) :
    read_names_from_file lines = ((lines.map strip).filter fun s => !(s == ""))
  ∧ (∀ n ∈ read_names_from_file lines, strip n = n ∧ n ≠ "")
  ∧ (∀ (l : String) (ls : List String), l.data.all pyIsSpace = true →
      read_names_from_file (l :: ls) = read_names_from_file ls) := by
  refine ⟨?_, ?_, ?_⟩
  · induction lines with
    | nil => rfl
    | cons l ls ih =>
        by_cases h : strip l = "" <;>
          simp [read_names_from_file, List.filterMap_cons, h, ← ih,
            read_names_from_file]
  · intro n hm
    unfold read_names_from_file at hm
    rw [List.mem_filterMap] at hm
    obtain ⟨l, _, hf⟩ := hm
    by_cases h : strip l = ""
    · simp [h] at hf
    · simp [h] at hf
      refine ⟨?_, fun hne => h ?_⟩
      · rw [← hf]
        exact strip_idem l
      · rw [hf, hne]
  · intro l ls h
    unfold read_names_from_file
    rw [List.filterMap_cons]
    simp [strip_eq_empty_of_all_space l h]

/-- Witness for C10: concrete lines with surrounding whitespace, an empty
line and a whitespace-only line. -/
theorem read_names_strips_and_filters_witness :
    ("   " : String).data.all pyIsSpace = true
  ∧ read_names_from_file ["   ", " Bob "] = read_names_from_file [" Bob "]
  ∧ read_names_from_file [" Bob ", "", "Ann"] = ["Bob", "Ann"] :=
  ⟨by decide,
    (read_names_strips_and_filters []).2.2 "   " [" Bob "] (by decide),
    by decide⟩

end Nameplates
